import Mathlib

/-!
Shallow embedding of `ticket_assignment_system.py` (class
`IntelligentTicketAssignmentSystem`), an intelligent support-ticket
assignment system, together with proofs of the specification claims.

Modelling conventions:
* Python strings analysed by keyword matching are embedded as `List Char`
  (`Text`); `str.lower()` is `Char.toLower` mapped over the text, and the
  Python substring test `kw in text` is `kw.toList <:+: text`.
* Python numbers are embedded as `ℚ` (scores, proficiencies, experience)
  and `ℤ` (priority scores, load counters); arithmetic is exact.
* The mutable `agent_loads` dict is explicit state of type `String → ℤ`
  threaded through the assignment loop.
* Python `list.sort` is a stable sort; a stable sort's output is uniquely
  determined by the sort key, so it is embedded as `List.insertionSort`
  (proved stable in Mathlib) with the corresponding total preorder.
* `agent_scores[0]` on an empty roster raises `IndexError`; the embedding
  returns `Option`, with `none` for the aborted run.
-/

namespace TicketSystem

/-- Free text, as the list of its characters. -/
abbrev Text := List Char

/-- Python `text.lower()`. -/
def lower (t : Text) : Text := t.map Char.toLower

/-- Python `kw in textLower`: substring containment of the keyword in the
already lower-cased text. -/
def containsKw (textLower : Text) (kw : String) : Bool :=
  decide (kw.toList <:+: textLower)

/-- The static skill keyword table `self.skill_keywords`, transcribed
verbatim from the source constructor: each skill tag maps to its ordered
list of trigger phrases. -/
def skill_keywords : List (String × List String) :=
  [("VPN_Troubleshooting", ["vpn", "virtual private network", "tunnel", "authentication error"]),
   ("Networking", ["network", "connectivity", "ping", "switch", "router", "outage", "dns"]),
   ("Hardware_Diagnostics", ["hardware", "laptop", "desktop", "boot", "bios", "fan", "overheating", "port", "usb", "monitor", "projector"]),
   ("Laptop_Repair", ["laptop", "battery", "charging", "screen", "keyboard", "fan"]),
   ("Microsoft_365", ["outlook", "microsoft 365", "m365", "email", "onedrive", "teams"]),
   ("Active_Directory", ["active directory", "ad", "account", "user account", "domain", "login", "password reset", "sso", "saml"]),
   ("Database_SQL", ["database", "sql server", "query", "backup", "connection timeout"]),
   ("Network_Security", ["security", "firewall", "intrusion", "breach", "malicious"]),
   ("Endpoint_Security", ["malware", "antivirus", "trojan", "phishing", "security"]),
   ("Cloud_Azure", ["azure", "app service", "cloud"]),
   ("Cloud_AWS", ["aws", "cloud"]),
   ("Printer_Troubleshooting", ["printer", "printing"]),
   ("SharePoint_Online", ["sharepoint", "collaboration", "site"]),
   ("Voice_VoIP", ["voip", "phone", "call"]),
   ("Web_Server_Apache_Nginx", ["website", "web server", "502", "500", "404"]),
   ("Windows_OS", ["windows", "desktop", "pc"]),
   ("Mac_OS", ["mac", "macos", "macbook"]),
   ("Linux_Administration", ["linux", "ubuntu", "samba", "permission"]),
   ("DevOps_CI_CD", ["jenkins", "ci/cd"]),
   ("Virtualization_VMware", ["vm", "virtual machine", "vmware"]),
   ("API_Troubleshooting", ["api"]),
   ("DNS_Configuration", ["dns"]),
   ("SSL_Certificates", ["ssl", "certificate"]),
   ("Phishing_Analysis", ["phishing"]),
   ("SIEM_Logging", ["siem", "log"]),
   ("Identity_Management", ["identity", "sso"]),
   ("SaaS_Integrations", ["saas", "integration"]),
   ("Firewall_Configuration", ["firewall"]),
   ("Switch_Configuration", ["switch"]),
   ("Routing_Protocols", ["routing"]),
   ("Network_Monitoring", ["monitoring"]),
   ("Endpoint_Management", ["endpoint"]),
   ("PowerShell_Scripting", ["powershell"]),
   ("Software_Licensing", ["license"]),
   ("Python_Scripting", ["python"]),
   ("Kubernetes_Docker", ["kubernetes", "docker"]),
   ("ETL_Processes", ["etl"]),
   ("Data_Warehousing", ["data warehouse"]),
   ("PowerBI_Tableau", ["powerbi", "tableau"]),
   ("Cisco_IOS", ["cisco"]),
   ("Network_Cabling", ["cable", "cabling"])]

/-- The critical-tier trigger phrases, `self.priority_keywords["critical"]`. -/
def critical_keywords : List String :=
  ["critical", "business-critical", "down", "outage", "not working", "failure", "failed", "crash", "urgent", "immediate"]

/-- The high-tier trigger phrases, `self.priority_keywords["high"]`. -/
def high_keywords : List String :=
  ["high", "security", "breach", "malware", "slow", "performance", "locked", "cannot", "unable", "broken"]

/-- The medium-tier trigger phrases, `self.priority_keywords["medium"]`. -/
def medium_keywords : List String :=
  ["medium", "sync", "access", "permission", "configuration"]

/-- The low-tier trigger phrases, `self.priority_keywords["low"]`. -/
def low_keywords : List String :=
  ["request", "setup", "new user", "license", "standard", "routine"]

/-- The skill-extraction loop of `extract_required_skills`, parameterised by
the keyword table: a tag is appended on the first trigger phrase found in
the lower-cased text (the inner `break`), i.e. exactly when some phrase of
its list is a substring.  The final Python `list(set(relevant_skills))`
re-orders a duplicate-free list arbitrarily; it is embedded as `dedup`,
which removes nothing here (table keys are distinct) and fixes one
representative order. -/
def extractSkillsWith (table : List (String × List String)) (text : Text) : List String :=
  (((table.filter (fun sk => sk.2.any (containsKw (lower text))))).map Prod.fst).dedup

/-- Python `extract_required_skills(self, text)`. -/
def extract_required_skills (text : Text) : List String :=
  extractSkillsWith skill_keywords text

/-- Python `calculate_priority_score(self, text)`: strictly tiered,
short-circuiting keyword lookup with default 6. -/
def calculate_priority_score (text : Text) : ℤ :=
  if critical_keywords.any (containsKw (lower text)) then 10
  else if high_keywords.any (containsKw (lower text)) then 8
  else if medium_keywords.any (containsKw (lower text)) then 5
  else if low_keywords.any (containsKw (lower text)) then 2
  else 6

/-- An agent record, as read from the `agents` input array. -/
structure Agent where
  agent_id : String
  name : String
  skills : List (String × ℚ)
  experience_level : ℚ
  availability_status : String
  current_load : ℤ
deriving DecidableEq

/-- A ticket record, as read from the `tickets` input array. -/
structure Ticket where
  ticket_id : String
  title : Text
  description : Text
  creation_timestamp : String
deriving DecidableEq

/-- The score breakdown dict returned by `calculate_agent_score`. -/
structure ScoreInfo where
  total_score : ℚ
  skill_score : ℚ
  experience_score : ℚ
  workload_score : ℚ
  availability_score : ℚ
  priority_bonus : ℚ
deriving DecidableEq

/-- Python `calculate_agent_score(self, agent, required_skills,
priority_score, current_load)`: the five additive components and their
unclamped sum. -/
def calculate_agent_score (agent : Agent) (required_skills : List String)
    (priority_score : ℤ) (current_load : ℤ) : ScoreInfo :=
  let skill_scores : List ℚ := required_skills.map (fun skill =>
    match agent.skills.lookup skill with
    | some v => v
    | none => 0)
  let avg_skill_score : ℚ :=
    if skill_scores = [] then 0 else skill_scores.sum / skill_scores.length
  let skill_match_score := avg_skill_score * 10
  let experience_score := min (agent.experience_level * 1.5) 20
  let workload_score : ℚ := ((max 0 ((5 - current_load) * 6) : ℤ) : ℚ)
  let availability_score : ℚ := if agent.availability_status = "Available" then 10 else 0
  let priority_bonus : ℚ := if 8 ≤ priority_score then (priority_score : ℚ) * 0.5 else 0
  { total_score := skill_match_score + experience_score + workload_score +
      availability_score + priority_bonus
    skill_score := skill_match_score
    experience_score := experience_score
    workload_score := workload_score
    availability_score := availability_score
    priority_bonus := priority_bonus }

/-- The proficiency an agent is credited with for one skill tag: the
looked-up value, 0 when the tag is absent (the else-branch of the source
loop).  Used to state the skill-match average independently of the code. -/
def profOf (agent : Agent) (skill : String) : ℚ :=
  (agent.skills.lookup skill).getD 0

/-- Python `sep.join(parts)`. -/
def joinSep (sep : String) : List String → String
  | [] => ""
  | [x] => x
  | x :: xs => x ++ (sep ++ joinSep sep xs)

/-- Python `create_assignment_rationale(self, agent, required_skills,
score_info, priority)`:  formats the skills of `required_skills` the agent
has entries for (in `required_skills` order), truncated to the first 3,
then appends the workload and priority clauses, joined by ". " with a
trailing period. -/
def create_assignment_rationale (agent : Agent) (required_skills : List String)
    (score_info : ScoreInfo) (priority : ℤ) : String :=
  let relevant_skills : List String := required_skills.filterMap (fun skill =>
    match agent.skills.lookup skill with
    | some v => some ("\x27" ++ skill ++ "\x27 (" ++ toString v ++ ")")
    | none => none)
  let skill_text := joinSep ", " (relevant_skills.take 3)
  let part1 : String :=
    if relevant_skills = [] then
      "Assigned to " ++ agent.name ++ " (" ++ agent.agent_id ++
        ") based on experience level (" ++ toString agent.experience_level ++ ")"
    else
      "Assigned to " ++ agent.name ++ " (" ++ agent.agent_id ++
        ") based on expertise in " ++ skill_text
  let parts : List String :=
    [part1] ++
      (if 15 < score_info.workload_score then ["and lower current workload"] else []) ++
        (if 8 ≤ priority then ["High priority ticket requiring immediate attention"] else [])
  joinSep ". " parts ++ "."

/-- An annotated ticket (`tickets_with_metadata` entry): the underlying
ticket plus the derived priority and required skills. -/
structure AnnTicket where
  ticket : Ticket
  priority : ℤ
  required_skills : List String
deriving DecidableEq

/-- The per-ticket annotation step of `assign_tickets`: analyse
`title + " " + description`. -/
def annotate (t : Ticket) : AnnTicket :=
  { ticket := t
    priority := calculate_priority_score (t.title ++ ' ' :: t.description)
    required_skills := extract_required_skills (t.title ++ ' ' :: t.description) }

/-- The ticket processing order: the total preorder induced by the Python
sort key `(-priority, creation_timestamp)` — priority descending, then
timestamp ascending. -/
def ticketLe (a b : AnnTicket) : Prop :=
  b.priority < a.priority ∨
    (a.priority = b.priority ∧ a.ticket.creation_timestamp ≤ b.ticket.creation_timestamp)

instance : DecidableRel ticketLe := fun a b => by
  unfold ticketLe; infer_instance

instance : IsTotal AnnTicket ticketLe := by
  constructor
  intro a b
  rcases lt_trichotomy a.priority b.priority with h | h | h
  · exact Or.inr (Or.inl h)
  · rcases le_total a.ticket.creation_timestamp b.ticket.creation_timestamp with ht | ht
    · exact Or.inl (Or.inr ⟨h, ht⟩)
    · exact Or.inr (Or.inr ⟨h.symm, ht⟩)
  · exact Or.inl (Or.inl h)

instance : IsTrans AnnTicket ticketLe := by
  constructor
  intro a b c hab hbc
  rcases hab with h1 | ⟨h1, t1⟩
  · rcases hbc with h2 | ⟨h2, _⟩
    · exact Or.inl (h2.trans h1)
    · exact Or.inl (h2 ▸ h1)
  · rcases hbc with h2 | ⟨h2, t2⟩
    · exact Or.inl (h1 ▸ h2)
    · exact Or.inr ⟨h1.trans h2, t1.trans t2⟩

/-- The agent ranking order used by
`agent_scores.sort(key=..., reverse=True)`: total score descending. -/
def scoreGe (x y : Agent × ScoreInfo) : Prop :=
  y.2.total_score ≤ x.2.total_score

instance : DecidableRel scoreGe := fun x y => by
  unfold scoreGe; infer_instance

instance : IsTotal (Agent × ScoreInfo) scoreGe :=
  ⟨fun x y => (le_total y.2.total_score x.2.total_score).imp id id⟩

instance : IsTrans (Agent × ScoreInfo) scoreGe :=
  ⟨fun _ _ _ h1 h2 => le_trans h2 h1⟩

/-- The per-ticket agent selection of `assign_tickets`: score every agent of
the roster against its current simulated load, stable-sort by total score
descending, take `agent_scores[0]`.  `none` models the `IndexError` raised
on an empty roster. -/
def chooseAgent (agents : List Agent) (required_skills : List String)
    (priority : ℤ) (loads : String → ℤ) : Option (Agent × ScoreInfo) :=
  (List.insertionSort scoreGe
    (agents.map (fun a =>
      (a, calculate_agent_score a required_skills priority (loads a.agent_id))))).head?

/-- Python `agent_loads[aid] += 1`. -/
def bumpLoad (loads : String → ℤ) (aid : String) : String → ℤ :=
  fun id => if id = aid then loads id + 1 else loads id

/-- The initial simulated loads,
`{agent["agent_id"]: agent["current_load"] for agent in agents_data}`
(later duplicate ids overwrite earlier ones, as in a dict comprehension;
ids absent from the roster are never looked up). -/
def initLoads (agents : List Agent) : String → ℤ :=
  agents.foldl (fun m a => fun id => if id = a.agent_id then a.current_load else m id)
    (fun _ => 0)

/-- An output assignment record. -/
structure Assignment where
  ticket_id : String
  title : Text
  assigned_agent_id : String
  rationale : String
deriving DecidableEq

/-- The assignment record emitted for one processed ticket. -/
def mkAssignment (t : AnnTicket) (best : Agent × ScoreInfo) : Assignment :=
  { ticket_id := t.ticket.ticket_id
    title := t.ticket.title
    assigned_agent_id := best.1.agent_id
    rationale := create_assignment_rationale best.1 t.required_skills best.2 t.priority }

/-- The sequential assignment loop of `assign_tickets` over the sorted
ticket queue: choose the best agent for each ticket against the current
loads, bump that agent's load, emit the assignment.  Returns the final
loads and the assignment list, or `none` when a selection fails (empty
roster: the exception aborts the whole run). -/
def processTickets (agents : List Agent) (loads : String → ℤ) :
    List AnnTicket → Option ((String → ℤ) × List Assignment)
  | [] => some (loads, [])
  | t :: ts =>
    match chooseAgent agents t.required_skills t.priority loads with
    | none => none
    | some best =>
      match processTickets agents (bumpLoad loads best.1.agent_id) ts with
      | none => none
      | some (finalLoads, asgs) => some (finalLoads, mkAssignment t best :: asgs)

/-- Python `assign_tickets(self, agents_data, tickets_data)`: annotate all
tickets, stable-sort them by priority descending then timestamp ascending,
and run the sequential assignment loop from the initial loads. -/
def assign_tickets (agents : List Agent) (tickets : List Ticket) :
    Option (List Assignment) :=
  (processTickets agents (initLoads agents)
    (List.insertionSort ticketLe (tickets.map annotate))).map Prod.snd

/-- A sample agent used to instantiate theorems at concrete inputs. -/
def agentW : Agent :=
  { agent_id := "a1", name := "Alice", skills := [("Networking", 9)],
    experience_level := 5, availability_status := "Available", current_load := 1 }

/-- A second sample agent (not available, lower proficiency). -/
def agentW2 : Agent :=
  { agent_id := "a2", name := "Bob", skills := [("Networking", 7)],
    experience_level := 4, availability_status := "Away", current_load := 0 }

/-- An agent proficient in the two skills matched by the text
"vpn and network issue", used to exercise the rationale generator. -/
def agentV : Agent :=
  { agent_id := "a1", name := "Alice",
    skills := [("VPN_Troubleshooting", 9), ("Networking", 8)],
    experience_level := 5, availability_status := "Available", current_load := 1 }

/-- A sample ticket used to instantiate theorems at concrete inputs. -/
def ticketW : Ticket :=
  { ticket_id := "t1", title := "network down".toList,
    description := "router failed".toList, creation_timestamp := "2025-01-02" }

/-- A second sample ticket (low priority, older timestamp). -/
def ticketW2 : Ticket :=
  { ticket_id := "t2", title := "printer setup".toList,
    description := "new user request".toList, creation_timestamp := "2025-01-01" }

/-- A priority tier fires on a text exactly when some trigger phrase of the
tier occurs as a substring of the lower-cased text. -/
def tierMatches (tier : List String) (text : Text) : Prop :=
  ∃ kw ∈ tier, kw.toList <:+: lower text

instance (tier : List String) (text : Text) : Decidable (tierMatches tier text) := by
  unfold tierMatches; infer_instance

theorem anyMatches_iff (tier : List String) (text : Text) :
    tier.any (containsKw (lower text)) = true ↔ tierMatches tier text := by
  simp [tierMatches, containsKw, List.any_eq_true]

/-- C2.  `calculate_priority_score` always returns one of 10, 8, 5, 2, 6,
by strictly tiered short-circuit evaluation: a critical-tier substring
match returns 10 regardless of lower tiers; otherwise high yields 8, then
medium 5, then low 2, and 6 is the default when no tier fires. -/
theorem claim_C2 (text : Text) :
    calculate_priority_score text ∈ ([10, 8, 5, 2, 6] : List ℤ) ∧
    (tierMatches critical_keywords text → calculate_priority_score text = 10) ∧
    (¬ tierMatches critical_keywords text → tierMatches high_keywords text →
      calculate_priority_score text = 8) ∧
    (¬ tierMatches critical_keywords text → ¬ tierMatches high_keywords text →
      tierMatches medium_keywords text → calculate_priority_score text = 5) ∧
    (¬ tierMatches critical_keywords text → ¬ tierMatches high_keywords text →
      ¬ tierMatches medium_keywords text → tierMatches low_keywords text →
      calculate_priority_score text = 2) ∧
    (¬ tierMatches critical_keywords text → ¬ tierMatches high_keywords text →
      ¬ tierMatches medium_keywords text → ¬ tierMatches low_keywords text →
      calculate_priority_score text = 6) := by
  have hC := anyMatches_iff critical_keywords text
  have hH := anyMatches_iff high_keywords text
  have hM := anyMatches_iff medium_keywords text
  have hL := anyMatches_iff low_keywords text
  unfold calculate_priority_score
  refine ⟨by split_ifs <;> simp, ?_, ?_, ?_, ?_, ?_⟩
  · intro h
    rw [if_pos (hC.mpr h)]
  · intro hnc h
    rw [if_neg (fun hx => hnc (hC.mp hx)), if_pos (hH.mpr h)]
  · intro hnc hnh h
    rw [if_neg (fun hx => hnc (hC.mp hx)), if_neg (fun hx => hnh (hH.mp hx)),
      if_pos (hM.mpr h)]
  · intro hnc hnh hnm h
    rw [if_neg (fun hx => hnc (hC.mp hx)), if_neg (fun hx => hnh (hH.mp hx)),
      if_neg (fun hx => hnm (hM.mp hx)), if_pos (hL.mpr h)]
  · intro hnc hnh hnm hnl
    rw [if_neg (fun hx => hnc (hC.mp hx)), if_neg (fun hx => hnh (hH.mp hx)),
      if_neg (fun hx => hnm (hM.mp hx)), if_neg (fun hx => hnl (hL.mp hx))]

theorem mem_extractSkillsWith (table : List (String × List String)) (text : Text)
    (s : String) :
    s ∈ extractSkillsWith table text ↔
      ∃ kws, (s, kws) ∈ table ∧ ∃ kw ∈ kws, kw.toList <:+: lower text := by
  unfold extractSkillsWith
  rw [List.mem_dedup, List.mem_map]
  constructor
  · rintro ⟨⟨s0, kws⟩, hmem, rfl⟩
    rw [List.mem_filter] at hmem
    refine ⟨kws, hmem.1, ?_⟩
    simpa [containsKw, List.any_eq_true] using hmem.2
  · rintro ⟨kws, htab, hkw⟩
    refine ⟨(s, kws), List.mem_filter.mpr ⟨htab, ?_⟩, rfl⟩
    simpa [containsKw, List.any_eq_true] using hkw

/-- C3.  A skill tag is extracted from a text iff one of its trigger
phrases from the static keyword table occurs as a substring of the
lower-cased text; the result has no duplicate tag; and membership in the
result is unchanged under any permutation of the keyword table, so the
extracted set depends only on the text. -/
theorem claim_C3 (text : Text) :
    (∀ s, s ∈ extract_required_skills text ↔
      ∃ kws, (s, kws) ∈ skill_keywords ∧ ∃ kw ∈ kws, kw.toList <:+: lower text) ∧
    (extract_required_skills text).Nodup ∧
    (∀ table2, table2.Perm skill_keywords →
      ∀ s, s ∈ extractSkillsWith table2 text ↔ s ∈ extract_required_skills text) := by
  refine ⟨fun s => mem_extractSkillsWith skill_keywords text s, List.nodup_dedup _, ?_⟩
  intro table2 hperm s
  rw [mem_extractSkillsWith, extract_required_skills, mem_extractSkillsWith]
  constructor
  · rintro ⟨kws, htab, hkw⟩
    exact ⟨kws, hperm.mem_iff.mp htab, hkw⟩
  · rintro ⟨kws, htab, hkw⟩
    exact ⟨kws, hperm.mem_iff.mpr htab, hkw⟩

/-- C4.  `calculate_agent_score` returns the five components computed by
the documented formulas — skill match is the average proficiency over the
required skills (0 for missing tags, 0 on an empty requirement) times 10,
experience is `min(experience_level * 1.5, 20)`, workload is
`max(0, (5 - load) * 6)`, availability is 10 exactly for the status
"Available", and the priority bonus is `priority * 0.5` exactly when the
priority is at least 8 — and the total is their unclamped sum. -/
theorem claim_C4 (agent : Agent) (required_skills : List String) (p load : ℤ) :
    (calculate_agent_score agent required_skills p load).skill_score =
      (if required_skills = [] then 0
        else (required_skills.map (profOf agent)).sum / required_skills.length) * 10 ∧
    (calculate_agent_score agent required_skills p load).experience_score =
      min (agent.experience_level * 1.5) 20 ∧
    (calculate_agent_score agent required_skills p load).workload_score =
      ((max 0 ((5 - load) * 6) : ℤ) : ℚ) ∧
    (calculate_agent_score agent required_skills p load).availability_score =
      (if agent.availability_status = "Available" then 10 else 0) ∧
    (calculate_agent_score agent required_skills p load).priority_bonus =
      (if 8 ≤ p then (p : ℚ) * 0.5 else 0) ∧
    (calculate_agent_score agent required_skills p load).total_score =
      (calculate_agent_score agent required_skills p load).skill_score +
        (calculate_agent_score agent required_skills p load).experience_score +
        (calculate_agent_score agent required_skills p load).workload_score +
        (calculate_agent_score agent required_skills p load).availability_score +
        (calculate_agent_score agent required_skills p load).priority_bonus := by
  have hfun : (fun skill => match agent.skills.lookup skill with
      | some v => v
      | none => 0) = profOf agent := by
    funext s
    unfold profOf
    cases agent.skills.lookup s <;> rfl
  refine ⟨?_, rfl, rfl, rfl, rfl, rfl⟩
  have hmid : (calculate_agent_score agent required_skills p load).skill_score =
      (if required_skills.map (profOf agent) = [] then (0:ℚ)
        else (required_skills.map (profOf agent)).sum /
          (required_skills.map (profOf agent)).length) * 10 := by
    simp only [calculate_agent_score, hfun]
  rw [hmid]
  simp [List.map_eq_nil_iff, List.length_map]

/-- C5.  The workload component of the agent score is monotonically
non-increasing in the current simulated load, equals 0 for every load at
least 5, and is never negative. -/
theorem claim_C5 (agent : Agent) (skills : List String) (p : ℤ) (l1 l2 : ℤ)
    (h : l1 ≤ l2) :
    (calculate_agent_score agent skills p l2).workload_score ≤
      (calculate_agent_score agent skills p l1).workload_score ∧
    (5 ≤ l1 → (calculate_agent_score agent skills p l1).workload_score = 0) ∧
    0 ≤ (calculate_agent_score agent skills p l1).workload_score := by
  have w : ∀ l : ℤ, (calculate_agent_score agent skills p l).workload_score
      = ((max 0 ((5 - l) * 6) : ℤ) : ℚ) := fun _ => rfl
  refine ⟨?_, ?_, ?_⟩
  · rw [w, w]
    have hmul : (5 - l2) * 6 ≤ (5 - l1) * 6 := by omega
    exact_mod_cast max_le_max le_rfl hmul
  · intro h5
    rw [w, max_eq_left (by omega : (5 - l1) * 6 ≤ (0:ℤ))]
    norm_num
  · rw [w]
    exact_mod_cast le_max_left 0 ((5 - l1) * 6)

/-- Witness for C5 at a concrete agent and loads 2 and 7. -/
theorem claim_C5_witness :
    (calculate_agent_score agentW [] 6 7).workload_score ≤
      (calculate_agent_score agentW [] 6 2).workload_score ∧
    (5 ≤ (2:ℤ) → (calculate_agent_score agentW [] 6 2).workload_score = 0) ∧
    0 ≤ (calculate_agent_score agentW [] 6 2).workload_score :=
  claim_C5 agentW [] 6 2 7 (by norm_num)

/-- C10 counterexample.  With an empty agent roster AND an empty ticket
list the assignment loop never runs, so `assign_tickets` returns the empty
assignment list normally instead of failing fatally: the claim is false at
this input. -/
theorem claim_C10_counterexample :
    assign_tickets [] [] = some [] := rfl

/-- C10 (amended).  With an empty agent roster and at least one ticket,
`assign_tickets` fails: the first processed ticket scores an empty agent
list and `agent_scores[0]` aborts the run, so no assignment list is
returned. -/
theorem claim_C10 (tickets : List Ticket) (h : tickets ≠ []) :
    assign_tickets [] tickets = none := by
  unfold assign_tickets
  cases hs : List.insertionSort ticketLe (tickets.map annotate) with
  | nil =>
    exfalso
    apply h
    have hlen := List.length_insertionSort ticketLe (tickets.map annotate)
    rw [hs] at hlen
    simp only [List.length_nil, List.length_map] at hlen
    exact List.length_eq_zero.mp hlen.symm
  | cons t rest =>
    simp [processTickets, chooseAgent]

/-- Witness for the amended C10 at a concrete one-ticket input. -/
theorem claim_C10_witness :
    assign_tickets [] [ticketW] = none :=
  claim_C10 [ticketW] (List.cons_ne_nil _ _)

theorem head_insertionSort_argmax (l : List (Agent × ScoreInfo)) (hne : l ≠ []) :
    ∃ b, (List.insertionSort scoreGe l).head? = some b ∧ b ∈ l ∧
      (∀ x ∈ l, x.2.total_score ≤ b.2.total_score) ∧
      l.find? (fun x => decide (x.2.total_score = b.2.total_score)) = some b := by
  induction l with
  | nil => exact absurd rfl hne
  | cons a l ih =>
    rcases eq_or_ne l [] with rfl | hl
    · refine ⟨a, rfl, List.mem_cons_self a [], ?_, ?_⟩
      · intro x hx
        rw [List.mem_singleton] at hx
        exact hx ▸ le_rfl
      · exact List.find?_cons_of_pos [] (by simp)
    · obtain ⟨b, hb_head, hb_mem, hb_max, hb_find⟩ := ih hl
      cases hsort : List.insertionSort scoreGe l with
      | nil =>
        rw [hsort] at hb_head
        exact absurd hb_head (by simp)
      | cons b0 t =>
        rw [hsort] at hb_head
        have hb0 : b = b0 := by simpa using hb_head.symm
        subst hb0
        by_cases hcmp : b.2.total_score ≤ a.2.total_score
        · refine ⟨a, ?_, List.mem_cons_self a l, ?_, ?_⟩
          · show (List.orderedInsert scoreGe a (List.insertionSort scoreGe l)).head? = some a
            rw [hsort, List.orderedInsert_of_le scoreGe t hcmp]
            rfl
          · intro x hx
            rcases List.mem_cons.mp hx with rfl | hx
            · exact le_rfl
            · exact (hb_max x hx).trans hcmp
          · exact List.find?_cons_of_pos l (by simp)
        · have hlt : a.2.total_score < b.2.total_score := not_le.mp hcmp
          refine ⟨b, ?_, List.mem_cons_of_mem a hb_mem, ?_, ?_⟩
          · show (List.orderedInsert scoreGe a (List.insertionSort scoreGe l)).head? = some b
            rw [hsort]
            show (if scoreGe a b then a :: b :: t
              else b :: List.orderedInsert scoreGe a t).head? = some b
            rw [if_neg (show ¬ scoreGe a b from hcmp)]
            rfl
          · intro x hx
            rcases List.mem_cons.mp hx with rfl | hx
            · exact le_of_lt hlt
            · exact hb_max x hx
          · rw [List.find?_cons_of_neg l (by simp [ne_of_lt hlt])]
            exact hb_find

/-- C7.  For every nonempty roster, required-skill set, priority and load
state, the agent selected by the per-ticket selection step of
`assign_tickets` belongs to the roster, carries the score computed against
its current load, attains the maximal total score over the whole roster,
and is the first agent in roster order attaining that maximal score. -/
theorem claim_C7 (agents : List Agent) (req : List String) (p : ℤ)
    (loads : String → ℤ) (h : agents ≠ []) :
    ∃ best, chooseAgent agents req p loads = some best ∧
      best.1 ∈ agents ∧
      best.2 = calculate_agent_score best.1 req p (loads best.1.agent_id) ∧
      (∀ a ∈ agents,
        (calculate_agent_score a req p (loads a.agent_id)).total_score ≤
          best.2.total_score) ∧
      agents.find? (fun a =>
        decide ((calculate_agent_score a req p (loads a.agent_id)).total_score =
          best.2.total_score)) = some best.1 := by
  have hne : agents.map (fun a =>
      (a, calculate_agent_score a req p (loads a.agent_id))) ≠ [] := by
    simpa [List.map_eq_nil_iff] using h
  obtain ⟨b, hhead, hmem, hmax, hfind⟩ :=
    head_insertionSort_argmax
      (agents.map (fun a => (a, calculate_agent_score a req p (loads a.agent_id)))) hne
  obtain ⟨a0, ha0, hfa0⟩ := List.mem_map.mp hmem
  have hb1 : b.1 = a0 := by rw [← hfa0]
  have hb2 : b.2 = calculate_agent_score a0 req p (loads a0.agent_id) := by rw [← hfa0]
  refine ⟨b, hhead, ?_, ?_, ?_, ?_⟩
  · rw [hb1]; exact ha0
  · rw [hb2, hb1]
  · intro a ha
    exact hmax (a, calculate_agent_score a req p (loads a.agent_id))
      (List.mem_map_of_mem _ ha)
  · have hcomp := List.find?_map
      (fun a => (a, calculate_agent_score a req p (loads a.agent_id))) agents
      (p := fun x : Agent × ScoreInfo => decide (x.2.total_score = b.2.total_score))
    rw [hfind] at hcomp
    obtain ⟨a1, ha1, hfa1⟩ := Option.map_eq_some'.mp hcomp.symm
    have : agents.find? (fun a =>
        decide ((calculate_agent_score a req p (loads a.agent_id)).total_score =
          b.2.total_score)) = some a1 := ha1
    rw [this, hb1]
    have : a0 = a1 := by
      have := congrArg Prod.fst hfa1
      simpa [← hfa0] using this.symm
    rw [this]

/-- Witness for C7 at a concrete two-agent roster. -/
theorem claim_C7_witness :
    ∃ best, chooseAgent [agentW, agentW2] ["Networking"] 10
        (initLoads [agentW, agentW2]) = some best ∧
      best.1 ∈ [agentW, agentW2] ∧
      best.2 = calculate_agent_score best.1 ["Networking"] 10
        (initLoads [agentW, agentW2] best.1.agent_id) ∧
      (∀ a ∈ [agentW, agentW2],
        (calculate_agent_score a ["Networking"] 10
          (initLoads [agentW, agentW2] a.agent_id)).total_score ≤
            best.2.total_score) ∧
      [agentW, agentW2].find? (fun a =>
        decide ((calculate_agent_score a ["Networking"] 10
          (initLoads [agentW, agentW2] a.agent_id)).total_score =
            best.2.total_score)) = some best.1 :=
  claim_C7 [agentW, agentW2] ["Networking"] 10 (initLoads [agentW, agentW2])
    (List.cons_ne_nil _ _)

theorem processTickets_loads (ts : List AnnTicket) :
    ∀ (agents : List Agent) (loads : String → ℤ) (fl : String → ℤ)
      (asgs : List Assignment),
    processTickets agents loads ts = some (fl, asgs) →
    ∀ aid, fl aid = loads aid +
        ((asgs.filter (fun x => decide (x.assigned_agent_id = aid))).length : ℤ) ∧
      loads aid ≤ fl aid := by
  induction ts with
  | nil =>
    intro agents loads fl asgs h aid
    simp only [processTickets, Option.some.injEq, Prod.mk.injEq] at h
    rw [← h.1, ← h.2]
    simp
  | cons t ts ih =>
    intro agents loads fl asgs h aid
    cases hc : chooseAgent agents t.required_skills t.priority loads with
    | none => simp [processTickets, hc] at h
    | some best =>
      rw [processTickets] at h
      simp only [hc] at h
      cases hp : processTickets agents (bumpLoad loads best.1.agent_id) ts with
      | none => simp only [hp] at h; exact absurd h (by simp)
      | some pr =>
        obtain ⟨fl2, asgs2⟩ := pr
        simp only [hp, Option.some.injEq, Prod.mk.injEq] at h
        obtain ⟨hfl, hasgs⟩ := h
        subst hfl
        rcases ih agents (bumpLoad loads best.1.agent_id) fl2 asgs2 hp aid with ⟨ihEq, ihLe⟩
        rw [← hasgs]
        by_cases haid : aid = best.1.agent_id
        · subst haid
          constructor
          · rw [ihEq]
            simp [bumpLoad, mkAssignment, List.filter_cons]
            ring
          · refine le_trans ?_ ihLe
            simp [bumpLoad]
        · constructor
          · rw [ihEq]
            have hne2 : ¬ (mkAssignment t best).assigned_agent_id = aid := by
              simp [mkAssignment]
              exact fun hx => haid hx.symm
            simp [bumpLoad, haid, List.filter_cons, hne2]
          · refine le_trans ?_ ihLe
            simp [bumpLoad, haid]

theorem processTickets_append (ts1 : List AnnTicket) :
    ∀ (ts2 : List AnnTicket) (agents : List Agent) (loads : String → ℤ)
      (fl : String → ℤ) (asgs : List Assignment),
    processTickets agents loads (ts1 ++ ts2) = some (fl, asgs) →
    ∃ mid asgs1 asgs2,
      processTickets agents loads ts1 = some (mid, asgs1) ∧
      processTickets agents mid ts2 = some (fl, asgs2) ∧
      asgs = asgs1 ++ asgs2 := by
  induction ts1 with
  | nil =>
    intro ts2 agents loads fl asgs h
    exact ⟨loads, [], asgs, rfl, h, rfl⟩
  | cons t ts1 ih =>
    intro ts2 agents loads fl asgs h
    rw [List.cons_append] at h
    cases hc : chooseAgent agents t.required_skills t.priority loads with
    | none => simp [processTickets, hc] at h
    | some best =>
      rw [processTickets] at h
      simp only [hc] at h
      cases hp : processTickets agents (bumpLoad loads best.1.agent_id) (ts1 ++ ts2) with
      | none => simp only [hp] at h; exact absurd h (by simp)
      | some pr =>
        obtain ⟨fl2, asgs2⟩ := pr
        simp only [hp, Option.some.injEq, Prod.mk.injEq] at h
        obtain ⟨hfl, hasgs⟩ := h
        subst hfl
        obtain ⟨mid, bs1, bs2, h1, h2, hsplit⟩ :=
          ih ts2 agents (bumpLoad loads best.1.agent_id) fl2 asgs2 hp
        refine ⟨mid, mkAssignment t best :: bs1, bs2, ?_, h2, ?_⟩
        · rw [processTickets]
          simp only [hc, h1]
        · rw [← hasgs, hsplit]
          rfl

/-- C8.  Whenever the assignment loop completes, each agent's final
simulated load equals its starting load plus the number of assignments it
received, and at every intermediate point of the run (after any prefix of
the ticket queue) the load equals the starting load plus the assignments
received so far, lies between the starting and the final load, and is
therefore monotonically non-decreasing across the run. -/
theorem claim_C8 (agents : List Agent) (loads : String → ℤ) (ts : List AnnTicket)
    (h : (processTickets agents loads ts).isSome = true) :
    ∃ fl asgs, processTickets agents loads ts = some (fl, asgs) ∧
      (∀ aid, fl aid = loads aid +
          ((asgs.filter (fun x => decide (x.assigned_agent_id = aid))).length : ℤ) ∧
        loads aid ≤ fl aid) ∧
      (∀ ts1 ts2, ts = ts1 ++ ts2 →
        ∃ mid asgs1 asgs2,
          processTickets agents loads ts1 = some (mid, asgs1) ∧
          processTickets agents mid ts2 = some (fl, asgs2) ∧
          asgs = asgs1 ++ asgs2 ∧
          ∀ aid, mid aid = loads aid +
              ((asgs1.filter (fun x => decide (x.assigned_agent_id = aid))).length : ℤ) ∧
            loads aid ≤ mid aid ∧ mid aid ≤ fl aid) := by
  obtain ⟨pr, hpr⟩ := Option.isSome_iff_exists.mp h
  obtain ⟨fl, asgs⟩ := pr
  refine ⟨fl, asgs, hpr, fun aid => processTickets_loads ts agents loads fl asgs hpr aid, ?_⟩
  intro ts1 ts2 hsplit
  subst hsplit
  obtain ⟨mid, asgs1, asgs2, h1, h2, hsp⟩ :=
    processTickets_append ts1 ts2 agents loads fl asgs hpr
  refine ⟨mid, asgs1, asgs2, h1, h2, hsp, fun aid => ?_⟩
  rcases processTickets_loads ts1 agents loads mid asgs1 h1 aid with ⟨hEq, hLe⟩
  rcases processTickets_loads ts2 agents mid fl asgs2 h2 aid with ⟨_, hLe2⟩
  exact ⟨hEq, hLe, hLe2⟩

/-- Witness for C8 at a concrete one-agent, one-ticket run. -/
theorem claim_C8_witness :
    ∃ fl asgs, processTickets [agentW] (initLoads [agentW]) [annotate ticketW] =
        some (fl, asgs) ∧
      (∀ aid, fl aid = initLoads [agentW] aid +
          ((asgs.filter (fun x => decide (x.assigned_agent_id = aid))).length : ℤ) ∧
        initLoads [agentW] aid ≤ fl aid) ∧
      (∀ ts1 ts2, [annotate ticketW] = ts1 ++ ts2 →
        ∃ mid asgs1 asgs2,
          processTickets [agentW] (initLoads [agentW]) ts1 = some (mid, asgs1) ∧
          processTickets [agentW] mid ts2 = some (fl, asgs2) ∧
          asgs = asgs1 ++ asgs2 ∧
          ∀ aid, mid aid = initLoads [agentW] aid +
              ((asgs1.filter (fun x => decide (x.assigned_agent_id = aid))).length : ℤ) ∧
            initLoads [agentW] aid ≤ mid aid ∧ mid aid ≤ fl aid) :=
  claim_C8 [agentW] (initLoads [agentW]) [annotate ticketW] rfl

theorem processTickets_ticket_ids (ts : List AnnTicket) :
    ∀ (agents : List Agent) (loads : String → ℤ) (fl : String → ℤ)
      (asgs : List Assignment),
    processTickets agents loads ts = some (fl, asgs) →
    asgs.map Assignment.ticket_id = ts.map (fun t => t.ticket.ticket_id) := by
  induction ts with
  | nil =>
    intro agents loads fl asgs h
    simp only [processTickets, Option.some.injEq, Prod.mk.injEq] at h
    rw [← h.2]
    rfl
  | cons t ts ih =>
    intro agents loads fl asgs h
    cases hc : chooseAgent agents t.required_skills t.priority loads with
    | none => simp [processTickets, hc] at h
    | some best =>
      rw [processTickets] at h
      simp only [hc] at h
      cases hp : processTickets agents (bumpLoad loads best.1.agent_id) ts with
      | none => simp only [hp] at h; exact absurd h (by simp)
      | some pr =>
        obtain ⟨fl2, asgs2⟩ := pr
        simp only [hp, Option.some.injEq, Prod.mk.injEq] at h
        rw [← h.2, List.map_cons, List.map_cons,
          ih agents (bumpLoad loads best.1.agent_id) fl2 asgs2 hp]
        rfl

/-- C1.  Whenever `assign_tickets` succeeds it emits exactly one
assignment per input ticket: the output has the input's length and its
ticket ids are a permutation of the input ticket ids (every input id
appears, none is dropped, none is duplicated). -/
theorem claim_C1 (agents : List Agent) (tickets : List Ticket)
    (h : (assign_tickets agents tickets).isSome = true) :
    ∃ out, assign_tickets agents tickets = some out ∧
      out.length = tickets.length ∧
      (out.map Assignment.ticket_id).Perm (tickets.map Ticket.ticket_id) := by
  obtain ⟨out, hout⟩ := Option.isSome_iff_exists.mp h
  obtain ⟨pr, hpr, hsnd⟩ := Option.map_eq_some'.mp hout
  obtain ⟨fl, asgs⟩ := pr
  have hids := processTickets_ticket_ids
    (List.insertionSort ticketLe (tickets.map annotate)) agents (initLoads agents)
      fl asgs hpr
  have hperm : ((List.insertionSort ticketLe (tickets.map annotate)).map
        (fun t => t.ticket.ticket_id)).Perm (tickets.map Ticket.ticket_id) := by
    have h1 := (List.perm_insertionSort ticketLe (tickets.map annotate)).map
      (fun t => t.ticket.ticket_id)
    have h2 : (tickets.map annotate).map (fun t => t.ticket.ticket_id) =
        tickets.map Ticket.ticket_id := by
      rw [List.map_map]
      rfl
    rw [h2] at h1
    exact h1
  refine ⟨out, hout, ?_, ?_⟩
  · have hlen1 : out.length = asgs.length := by rw [← hsnd]
    have hlen2 : asgs.length = tickets.length := by
      have := congrArg List.length hids
      simpa [List.length_insertionSort] using this
    rw [hlen1, hlen2]
  · have : out.map Assignment.ticket_id =
        (List.insertionSort ticketLe (tickets.map annotate)).map
          (fun t => t.ticket.ticket_id) := by
      rw [← hsnd]
      exact hids
    rw [this]
    exact hperm

/-- Witness for C1 at a concrete one-agent, two-ticket input. -/
theorem claim_C1_witness :
    ∃ out, assign_tickets [agentW] [ticketW, ticketW2] = some out ∧
      out.length = [ticketW, ticketW2].length ∧
      (out.map Assignment.ticket_id).Perm
        ([ticketW, ticketW2].map Ticket.ticket_id) :=
  claim_C1 [agentW] [ticketW, ticketW2] rfl

/-- C6.  Whenever `assign_tickets` succeeds, the assignments are emitted in
the processing order of the sorted ticket queue; that queue is sorted by
the key "priority descending, then creation timestamp ascending" (so two
equal-priority tickets appear oldest first, and any two positions of the
output respect the key); and the sort is stable: any key-ordered pair of
annotated tickets that appears in input order stays in that order — in
particular tickets equal on both keys keep their input order. -/
theorem claim_C6 (agents : List Agent) (tickets : List Ticket)
    (h : (assign_tickets agents tickets).isSome = true) :
    ∃ out, assign_tickets agents tickets = some out ∧
      out.map Assignment.ticket_id =
        (List.insertionSort ticketLe (tickets.map annotate)).map
          (fun t => t.ticket.ticket_id) ∧
      List.Sorted ticketLe (List.insertionSort ticketLe (tickets.map annotate)) ∧
      (∀ i j : Fin (List.insertionSort ticketLe (tickets.map annotate)).length,
        i < j →
          ticketLe ((List.insertionSort ticketLe (tickets.map annotate)).get i)
            ((List.insertionSort ticketLe (tickets.map annotate)).get j)) ∧
      (∀ a b : AnnTicket, ticketLe a b →
        [a, b].Sublist (tickets.map annotate) →
        [a, b].Sublist (List.insertionSort ticketLe (tickets.map annotate))) := by
  obtain ⟨out, hout⟩ := Option.isSome_iff_exists.mp h
  obtain ⟨pr, hpr, hsnd⟩ := Option.map_eq_some'.mp hout
  obtain ⟨fl, asgs⟩ := pr
  refine ⟨out, hout, ?_, List.sorted_insertionSort ticketLe _, ?_, ?_⟩
  · rw [← hsnd]
    exact processTickets_ticket_ids _ agents (initLoads agents) fl asgs hpr
  · intro i j hij
    exact (List.sorted_insertionSort ticketLe _).rel_get_of_lt hij
  · intro a b hab hsub
    exact List.pair_sublist_insertionSort hab hsub

/-- Witness for C6 at a concrete one-agent, two-ticket input. -/
theorem claim_C6_witness :
    ∃ out, assign_tickets [agentW] [ticketW, ticketW2] = some out ∧
      out.map Assignment.ticket_id =
        (List.insertionSort ticketLe ([ticketW, ticketW2].map annotate)).map
          (fun t => t.ticket.ticket_id) ∧
      List.Sorted ticketLe
        (List.insertionSort ticketLe ([ticketW, ticketW2].map annotate)) ∧
      (∀ i j : Fin (List.insertionSort ticketLe
          ([ticketW, ticketW2].map annotate)).length,
        i < j →
          ticketLe ((List.insertionSort ticketLe ([ticketW, ticketW2].map annotate)).get i)
            ((List.insertionSort ticketLe ([ticketW, ticketW2].map annotate)).get j)) ∧
      (∀ a b : AnnTicket, ticketLe a b →
        [a, b].Sublist ([ticketW, ticketW2].map annotate) →
        [a, b].Sublist (List.insertionSort ticketLe ([ticketW, ticketW2].map annotate))) :=
  claim_C6 [agentW] [ticketW, ticketW2] rfl

theorem relevant_eq (agent : Agent) (req : List String) :
    req.filterMap (fun skill =>
      match agent.skills.lookup skill with
      | some v => some ("\x27" ++ skill ++ "\x27 (" ++ toString v ++ ")")
      | none => none) =
    (req.filter (fun s => (agent.skills.lookup s).isSome)).map
      (fun s => "\x27" ++ s ++ "\x27 (" ++ toString (profOf agent s) ++ ")") := by
  induction req with
  | nil => rfl
  | cons s req ih =>
    rw [List.filterMap_cons, List.filter_cons]
    cases hs : agent.skills.lookup s with
    | none => simpa [hs] using ih
    | some v => simp [hs, profOf, ih]

theorem joinSep_head (x : String) (xs : List String) :
    ∃ r, joinSep ". " (x :: xs) ++ "." = x ++ r := by
  cases xs with
  | nil => exact ⟨".", rfl⟩
  | cons y ys =>
    refine ⟨". " ++ joinSep ". " (y :: ys) ++ ".", ?_⟩
    show (x ++ (". " ++ joinSep ". " (y :: ys))) ++ "." =
      x ++ (". " ++ joinSep ". " (y :: ys) ++ ".")
    rw [String.append_assoc]

theorem calc_score_perm (agent : Agent) (p load : ℤ) {req1 req2 : List String}
    (hperm : req1.Perm req2) :
    calculate_agent_score agent req1 p load = calculate_agent_score agent req2 p load := by
  have hfun : (fun skill => match agent.skills.lookup skill with
      | some v => v
      | none => 0) = profOf agent := by
    funext s
    unfold profOf
    cases agent.skills.lookup s <;> rfl
  have hsum : (req1.map (profOf agent)).sum = (req2.map (profOf agent)).sum :=
    (hperm.map (profOf agent)).sum_eq
  have hlen : req1.length = req2.length := hperm.length_eq
  have hnil : (req1 = []) ↔ (req2 = []) := by
    rw [← List.length_eq_zero, ← List.length_eq_zero, hlen]
  have havg : (if req1.map (profOf agent) = [] then (0:ℚ)
      else (req1.map (profOf agent)).sum / (req1.map (profOf agent)).length) =
      (if req2.map (profOf agent) = [] then (0:ℚ)
      else (req2.map (profOf agent)).sum / (req2.map (profOf agent)).length) := by
    by_cases h1 : req1 = []
    · rw [if_pos (by simp [List.map_eq_nil_iff, h1]),
        if_pos (by simp [List.map_eq_nil_iff, hnil.mp h1])]
    · rw [if_neg (by simp [List.map_eq_nil_iff, h1]),
        if_neg (by simp only [List.map_eq_nil_iff]; exact fun hx => h1 (hnil.mpr hx)),
        hsum]
      simp [List.length_map, hlen]
  simp only [calculate_agent_score, hfun]
  rw [havg]

/-- C9.  The claim requires the rationale to list the first (at most) 3
agent-known required skills in discovery order, the order in which the
tags were matched in the ticket text.  The source instead passes
`required_skills` through `list(set(relevant_skills))`, whose iteration
order is hash-dependent in CPython, and the rationale displays the skills
in exactly the order of that list: this theorem evaluates the code at the
failing input.  For the text "vpn and network issue" the discovery order
of the matched tags is VPN_Troubleshooting then Networking (first
conjunct), yet the two orderings of that matched set — both produced by
the source's `list(set(...))`, e.g. under PYTHONHASHSEED 0 and 2 — yield
different rationale strings (second conjunct), so the displayed order
follows the arbitrary set order, not discovery order.  (Scoring, by
contrast, is permutation-invariant: see `calc_score_perm`.) -/
theorem claim_C9_bug :
    extract_required_skills ("vpn and network issue".toList) =
      ["VPN_Troubleshooting", "Networking"] ∧
    create_assignment_rationale agentV ["Networking", "VPN_Troubleshooting"]
        (calculate_agent_score agentV ["Networking", "VPN_Troubleshooting"] 6 1) 6 ≠
      create_assignment_rationale agentV ["VPN_Troubleshooting", "Networking"]
        (calculate_agent_score agentV ["VPN_Troubleshooting", "Networking"] 6 1) 6 := by
  constructor
  · decide
  · decide

end TicketSystem
